import Mathlib

/-!
hello-service: a signal-driven idle loop.

Shallow embedding of `hello.cpp` (recipe `hello-service`):

```
static bool running = true;
void signal_handler(int) { running = false; }
int main() {
  signal(SIGTERM, signal_handler);
  signal(SIGINT, signal_handler);
  cout << "Hello World from Yocto! PID: " << getpid() << endl;
  while (running) { sleep(5); }
  cout << "Service exiting cleanly" << endl;
  return 0;
}
```

The program is embedded as a small-step machine with one program point per
statement of `main`.  A run is a list of events of three kinds: the program
executes its next statement, one unit of time passes inside `sleep`, a
termination signal is delivered.

What the embedding takes from the platform rather than from the source:

* `getpid()` returns a value chosen by the environment;
* a call of `signal` succeeds or fails as the environment decides, and `main`
  ignores which;
* a signal with `signal_handler` installed runs the handler and ends a `sleep`
  in progress; a signal without handler terminates the process;
* writing a line always succeeds;
* time passes only inside `sleep`.
-/

namespace HelloService

/-! ## Data model -/

/-- Signal number of the interrupt request (the value of `SIGINT` in `signal.h`). -/
def SIGINT : Int := 2

/-- Signal number of the termination request (the value of `SIGTERM` in `signal.h`). -/
def SIGTERM : Int := 15

/-- The termination signals the environment may deliver. -/
inductive Signal
  | int
  | term
  deriving DecidableEq

/-- The signal number passed to a handler when the signal is delivered. -/
def Signal.num : Signal → Int
  | .int => SIGINT
  | .term => SIGTERM

/-- Program points of `main`, one per statement, plus the two ways the process ends.

* `regTerm`   : before `signal(SIGTERM, signal_handler)` (line 12)
* `regInt`    : before `signal(SIGINT, signal_handler)` (line 13)
* `greet`     : before the greeting is written (line 15)
* `test`      : before the loop condition `while (running)` is evaluated (line 17)
* `callSleep` : the condition was true, `sleep(5)` is about to be called (line 18)
* `sleeping r`: blocked inside `sleep`, with `r` time units still to go
* `bye`       : before the shutdown message is written (line 21)
* `ret`       : before `return 0` (line 22)
* `exited st` : `main` has returned `st`
* `killed sg` : the process was terminated by the default action of signal `sg`
-/
inductive Pc
  | regTerm
  | regInt
  | greet
  | test
  | callSleep
  | sleeping (rem : Nat)
  | bye
  | ret
  | exited (status : Int)
  | killed (sig : Signal)
  deriving DecidableEq

/-- Process state: the global `running`, the lines written to standard output, the
program point, the signal numbers whose disposition is `signal_handler`, the time
elapsed since start and the number of calls of `sleep` made so far. -/
structure State where
  running : Bool
  out : List String
  pc : Pc
  handlers : List Int
  clock : Nat
  sleeps : Nat
  deriving DecidableEq

/-- What the operating system decides: the value returned by `getpid()` and, for each
signal number, whether a call of `signal` for it succeeds. -/
structure Env where
  pid : Int
  sigOk : Int → Bool

/-- Events of a run. -/
inductive Ev
  | step
  | tick
  | signal (sig : Signal)
  deriving DecidableEq

/-! ## The program -/

/-- State at process start: `static bool running = true;`, nothing written, no handler
installed. -/
def init : State :=
  { running := true, out := [], pc := Pc.regTerm, handlers := [], clock := 0, sleeps := 0 }

/-- Source: `void signal_handler(int) { running = false; }`. -/
def signal_handler (_sig : Int) (s : State) : State :=
  { s with running := false }

/-- The library call `signal(signum, signal_handler)`: on success the disposition of
`signum` becomes `signal_handler`; on failure nothing changes.  `main` discards the
value returned. -/
def signal (env : Env) (signum : Int) (s : State) : State :=
  if env.sigOk signum then { s with handlers := s.handlers.insert signum } else s

/-- The first line written: `"Hello World from Yocto! PID: " << getpid()`. -/
def greeting (pid : Int) : String :=
  "Hello World from Yocto! PID: " ++ toString pid

/-- The second line written. -/
def farewell : String :=
  "Service exiting cleanly"

/-- The argument of `sleep` in the loop body. -/
def interval : Nat := 5

/-- Source: `main`, one statement at a time.  `none` means that the program cannot
execute a statement now: it is blocked in `sleep` or the process is gone. -/
def main (env : Env) (s : State) : Option State :=
  match s.pc with
  | .regTerm => some { signal env SIGTERM s with pc := Pc.regInt }
  | .regInt => some { signal env SIGINT s with pc := Pc.greet }
  | .greet => some { s with out := s.out ++ [greeting env.pid], pc := Pc.test }
  | .test => some { s with pc := if s.running then Pc.callSleep else Pc.bye }
  | .callSleep => some { s with pc := Pc.sleeping interval, sleeps := s.sleeps + 1 }
  | .sleeping 0 => some { s with pc := Pc.test }
  | .sleeping (_ + 1) => none
  | .bye => some { s with out := s.out ++ [farewell], pc := Pc.ret }
  | .ret => some { s with pc := Pc.exited 0 }
  | .exited _ => none
  | .killed _ => none

/-- One unit of time passes.  Time is spent only inside `sleep`; every other statement
is instantaneous, so that the clock counts the time units slept. -/
def tick (s : State) : Option State :=
  match s.pc with
  | .sleeping (r + 1) => some { s with pc := Pc.sleeping r, clock := s.clock + 1 }
  | _ => none

/-- A caught signal ends a `sleep` in progress: `sleep` returns when the time asked for
has elapsed or when a signal is delivered whose action is to call a handler.  Control
is then back at the loop condition; the unslept time that `sleep` returns is discarded
by `main`. -/
def interrupt (s : State) : State :=
  match s.pc with
  | .sleeping _ => { s with pc := Pc.test }
  | _ => s

/-- Delivery of a termination signal to the process.  When `signal_handler` is
installed for it the handler runs and a sleep in progress is cut short; otherwise the
default action of the signal, which for `SIGINT` and `SIGTERM` is to terminate the
process, is taken.  No signal reaches a process that is gone. -/
def deliver (sig : Signal) (s : State) : Option State :=
  match s.pc with
  | .exited _ => none
  | .killed _ => none
  | _ =>
    if sig.num ∈ s.handlers then some (interrupt (signal_handler sig.num s))
    else some { s with pc := Pc.killed sig }

/-- One event of a run. -/
def next (env : Env) (s : State) : Ev → Option State
  | .step => main env s
  | .tick => tick s
  | .signal sig => deliver sig s

/-- A run: the events are applied in order; `none` when one of them cannot happen. -/
def exec (env : Env) (s : State) : List Ev → Option State
  | [] => some s
  | e :: es => (next env s e).bind fun s1 => exec env s1 es

/-! ## Program points and transitions -/

/-- The process still exists: `main` has not returned and no signal has killed it. -/
def Pc.live : Pc → Bool
  | .exited _ => false
  | .killed _ => false
  | _ => true

/-- The process is blocked inside `sleep`. -/
def Pc.asleep : Pc → Bool
  | .sleeping _ => true
  | _ => false

/-- The program point is inside the idle loop `while (running) { sleep(5); }`. -/
def Pc.inLoop : Pc → Bool
  | .test => true
  | .callSleep => true
  | .sleeping _ => true
  | _ => false

/-- The event is not a signal. -/
def Ev.quiet : Ev → Bool
  | .signal _ => false
  | _ => true

/-- The transitions of the machine as a relation, one constructor per case of `main`,
`tick` and `deliver`.  By `next_eq_some` and `next_of_step` it holds exactly when
`next` yields the state; the proofs use it to take a transition apart. -/
inductive Step (env : Env) : State → Ev → State → Prop
  | regTerm (s : State) (hpc : s.pc = Pc.regTerm) :
      Step env s Ev.step { signal env SIGTERM s with pc := Pc.regInt }
  | regInt (s : State) (hpc : s.pc = Pc.regInt) :
      Step env s Ev.step { signal env SIGINT s with pc := Pc.greet }
  | greet (s : State) (hpc : s.pc = Pc.greet) :
      Step env s Ev.step { s with out := s.out ++ [greeting env.pid], pc := Pc.test }
  | enter (s : State) (hpc : s.pc = Pc.test) (hr : s.running = true) :
      Step env s Ev.step { s with pc := Pc.callSleep }
  | leave (s : State) (hpc : s.pc = Pc.test) (hr : s.running = false) :
      Step env s Ev.step { s with pc := Pc.bye }
  | callSleep (s : State) (hpc : s.pc = Pc.callSleep) :
      Step env s Ev.step { s with pc := Pc.sleeping interval, sleeps := s.sleeps + 1 }
  | wake (s : State) (hpc : s.pc = Pc.sleeping 0) :
      Step env s Ev.step { s with pc := Pc.test }
  | bye (s : State) (hpc : s.pc = Pc.bye) :
      Step env s Ev.step { s with out := s.out ++ [farewell], pc := Pc.ret }
  | ret (s : State) (hpc : s.pc = Pc.ret) :
      Step env s Ev.step { s with pc := Pc.exited 0 }
  | tick (s : State) (r : Nat) (hpc : s.pc = Pc.sleeping (r + 1)) :
      Step env s Ev.tick { s with pc := Pc.sleeping r, clock := s.clock + 1 }
  | caughtAsleep (s : State) (sig : Signal) (r : Nat) (hpc : s.pc = Pc.sleeping r)
      (hh : sig.num ∈ s.handlers) :
      Step env s (Ev.signal sig) { s with running := false, pc := Pc.test }
  | caughtAwake (s : State) (sig : Signal) (hl : s.pc.live = true)
      (ha : s.pc.asleep = false) (hh : sig.num ∈ s.handlers) :
      Step env s (Ev.signal sig) { s with running := false }
  | uncaught (s : State) (sig : Signal) (hl : s.pc.live = true)
      (hh : sig.num ∉ s.handlers) :
      Step env s (Ev.signal sig) { s with pc := Pc.killed sig }

/-- The handlers installed once both calls of `signal` have been made. -/
def registered (env : Env) : List Int :=
  (signal env SIGINT (signal env SIGTERM init)).handlers

/-! ## Invariants and measures -/

/-- What holds in every state that a run from `init` reaches, program point by program
point: the lines written so far, the handlers installed, the value of `running` once
the loop has been left, and the exit status. -/
def Inv (env : Env) (s : State) : Prop :=
  match s.pc with
  | .regTerm => s.out = [] ∧ s.handlers = []
  | .regInt => s.out = [] ∧ s.handlers = (signal env SIGTERM init).handlers
  | .greet => s.out = [] ∧ s.handlers = registered env
  | .test => s.out = [greeting env.pid] ∧ s.handlers = registered env
  | .callSleep => s.out = [greeting env.pid] ∧ s.handlers = registered env
  | .sleeping r => s.out = [greeting env.pid] ∧ s.handlers = registered env ∧ r ≤ interval
  | .bye => s.out = [greeting env.pid] ∧ s.handlers = registered env ∧ s.running = false
  | .ret => s.out = [greeting env.pid, farewell] ∧ s.handlers = registered env ∧
      s.running = false
  | .exited st => s.out = [greeting env.pid, farewell] ∧ s.handlers = registered env ∧
      s.running = false ∧ st = 0
  | .killed _ => s.out = [] ∨ s.out = [greeting env.pid] ∨
      (s.out = [greeting env.pid, farewell] ∧ s.running = false)

/-- During the run `evs` from `s` a termination signal was delivered to
`signal_handler` while `running` was still true: some event of the run is a signal
that arrived in a state `s0` in which its handler was installed and the flag set. -/
def Caught (env : Env) (s : State) (evs : List Ev) : Prop :=
  ∃ pre sig post s0, evs = pre ++ Ev.signal sig :: post ∧ exec env s pre = some s0 ∧
    sig.num ∈ s0.handlers ∧ s0.running = true

/-- What holds in every state reached without any signal: the flag is set, the
process is in its startup or in the loop, only the greeting may have been written, and
all the time elapsed was spent in whole sleep intervals and the one in progress. -/
def Idling (env : Env) (s : State) : Prop :=
  s.running = true ∧
  match s.pc with
  | .regTerm => s.out = [] ∧ s.clock = 0 ∧ s.sleeps = 0
  | .regInt => s.out = [] ∧ s.clock = 0 ∧ s.sleeps = 0
  | .greet => s.out = [] ∧ s.clock = 0 ∧ s.sleeps = 0
  | .test => s.out = [greeting env.pid] ∧ s.clock = interval * s.sleeps
  | .callSleep => s.out = [greeting env.pid] ∧ s.clock = interval * s.sleeps
  | .sleeping r => s.out = [greeting env.pid] ∧ r ≤ interval ∧
      s.clock + r = interval * s.sleeps
  | _ => False

/-- The process is shutting down: the flag is false, both handlers are installed and
no signal has killed it. -/
def Stopping (s : State) : Prop :=
  s.running = false ∧ SIGTERM ∈ s.handlers ∧ SIGINT ∈ s.handlers ∧
    ∀ sg, s.pc ≠ Pc.killed sg

/-- Number of statements and time units that remain before `main` has returned, in a
process whose flag is already false. -/
def Pc.todo : Pc → Nat
  | .regTerm => 6
  | .regInt => 5
  | .greet => 4
  | .test => 3
  | .callSleep => interval + 5
  | .sleeping r => r + 4
  | .bye => 2
  | .ret => 1
  | .exited _ => 0
  | .killed _ => 0

/-- Time that remains to be slept, in a process whose flag is already false. -/
def Pc.wait : Pc → Nat
  | .callSleep => interval
  | .sleeping r => r
  | _ => 0

/-- Calls of `sleep` that remain to be made, in a process whose flag is already false. -/
def Pc.naps : Pc → Nat
  | .callSleep => 1
  | _ => 0

/-! ## Environments, runs and states of the examples -/

/-- An environment in which both registrations succeed. -/
def okEnv (pid : Int) : Env :=
  { pid := pid, sigOk := fun _ => true }

/-- An environment in which every call of `signal` fails. -/
def failEnv (pid : Int) : Env :=
  { pid := pid, sigOk := fun _ => false }

/-- An environment in which `signal` fails for `SIGTERM` and succeeds for `SIGINT`. -/
def termFailEnv (pid : Int) : Env :=
  { pid := pid, sigOk := fun k => decide (k = SIGINT) }

/-- The three statements before the loop. -/
def startup : List Ev :=
  [Ev.step, Ev.step, Ev.step]

/-- One pass of the loop with no signal: the condition is evaluated, `sleep(5)` is
called, five time units pass and `sleep` returns. -/
def nap : List Ev :=
  [Ev.step, Ev.step, Ev.tick, Ev.tick, Ev.tick, Ev.tick, Ev.tick, Ev.step]

/-- The signal-free run with `n` completed sleep intervals. -/
def idleRun : Nat → List Ev
  | 0 => startup
  | n + 1 => idleRun n ++ nap

/-- The first four statements of `main`: both registrations, the greeting and one
evaluation of the loop condition. -/
def toCall : List Ev :=
  [Ev.step, Ev.step, Ev.step, Ev.step]

/-- A run that starts the service, lets the loop condition pass, delivers `SIGINT`
just before `sleep(5)` is called, sleeps the whole interval and shuts down. -/
def slowRun : List Ev :=
  [Ev.step, Ev.step, Ev.step, Ev.step, Ev.signal Signal.int, Ev.step,
   Ev.tick, Ev.tick, Ev.tick, Ev.tick, Ev.tick, Ev.step, Ev.step, Ev.step, Ev.step]

/-- The state in which `slowRun` ends for process id 4711. -/
def slowEnd : State :=
  { running := false,
    out := ["Hello World from Yocto! PID: 4711", "Service exiting cleanly"],
    pc := Pc.exited 0, handlers := [2, 15], clock := 5, sleeps := 1 }

/-- A signal-free run observed 12 time units after start: two whole sleep intervals
and two time units of the third. -/
def twelveRun : List Ev :=
  idleRun 2 ++ [Ev.step, Ev.step, Ev.tick, Ev.tick]

/-- The state in which `twelveRun` ends for process id 4711. -/
def twelveEnd : State :=
  { running := true, out := ["Hello World from Yocto! PID: 4711"], pc := Pc.sleeping 3,
    handlers := [2, 15], clock := 12, sleeps := 3 }

/-- A state at the loop condition in which a signal has already cleared `running`. -/
def flagged : State :=
  { running := false, out := ["Hello World from Yocto! PID: 4711"], pc := Pc.test,
    handlers := [2, 15], clock := 3, sleeps := 1 }

/-- The state in which the shutdown from `flagged` ends. -/
def flaggedEnd : State :=
  { running := false,
    out := ["Hello World from Yocto! PID: 4711", "Service exiting cleanly"],
    pc := Pc.exited 0, handlers := [2, 15], clock := 3, sleeps := 1 }

/-- Process 4711 after `toCall`: the loop condition was true and `sleep(5)` is about to
be called. -/
def atCall : State :=
  { running := true, out := ["Hello World from Yocto! PID: 4711"], pc := Pc.callSleep,
    handlers := [2, 15], clock := 0, sleeps := 0 }

/-- The state `atCall` after `SIGINT` was caught: the flag is false, `sleep(5)` is
still about to be called. -/
def atCallFlagged : State :=
  { atCall with running := false }

/-- The state reached from `atCallFlagged` after the call of `sleep` and two time
units. -/
def midSleep : State :=
  { running := false, out := ["Hello World from Yocto! PID: 4711"], pc := Pc.sleeping 3,
    handlers := [2, 15], clock := 2, sleeps := 1 }

/-- Process 4711 asleep in the loop when both calls of `signal` have failed. -/
def unarmed : State :=
  { running := true, out := ["Hello World from Yocto! PID: 4711"], pc := Pc.sleeping 5,
    handlers := [], clock := 0, sleeps := 1 }

/-- Process 4711 between its two calls of `signal`, after `SIGTERM` was caught. -/
def halfArmed : State :=
  { running := false, out := [], pc := Pc.regInt, handlers := [15], clock := 0,
    sleeps := 0 }

/-! ## Runs -/

@[simp]
theorem exec_nil (env : Env) (s : State) : exec env s [] = some s := rfl

@[simp]
theorem exec_cons (env : Env) (s : State) (e : Ev) (es : List Ev) :
    exec env s (e :: es) = (next env s e).bind fun s1 => exec env s1 es := rfl

theorem exec_append (env : Env) (s : State) (a b : List Ev) :
    exec env s (a ++ b) = (exec env s a).bind fun s1 => exec env s1 b := by
  induction a generalizing s with
  | nil => simp
  | cons e es ih =>
    simp only [List.cons_append, exec_cons]
    cases next env s e with
    | none => simp
    | some s1 => simpa using ih s1

/-- The greeting and the shutdown message are different lines. -/
theorem greeting_ne_farewell (p : Int) : greeting p ≠ farewell := by
  intro h
  have h1 := congrArg String.data h
  simp [greeting, farewell, String.data_append] at h1

@[simp]
theorem signal_running (env : Env) (k : Int) (s : State) :
    (signal env k s).running = s.running := by
  unfold signal; split <;> rfl

@[simp]
theorem signal_out (env : Env) (k : Int) (s : State) : (signal env k s).out = s.out := by
  unfold signal; split <;> rfl

@[simp]
theorem signal_pc (env : Env) (k : Int) (s : State) : (signal env k s).pc = s.pc := by
  unfold signal; split <;> rfl

@[simp]
theorem signal_clock (env : Env) (k : Int) (s : State) :
    (signal env k s).clock = s.clock := by
  unfold signal; split <;> rfl

@[simp]
theorem signal_sleeps (env : Env) (k : Int) (s : State) :
    (signal env k s).sleeps = s.sleeps := by
  unfold signal; split <;> rfl

theorem signal_handlers (env : Env) (k : Int) (s : State) :
    (signal env k s).handlers = if env.sigOk k then s.handlers.insert k else s.handlers := by
  unfold signal; split <;> rfl

theorem exec_invariant (env : Env) (P : State → Prop)
    (hP : ∀ s e s1, P s → next env s e = some s1 → P s1) :
    ∀ evs s s1, P s → exec env s evs = some s1 → P s1 := by
  intro evs
  induction evs with
  | nil =>
    intro s s1 hs h
    simp at h
    exact h ▸ hs
  | cons e es ih =>
    intro s s1 hs h
    simp only [exec_cons] at h
    cases hn : next env s e with
    | none => simp [hn] at h
    | some s2 =>
      rw [hn] at h
      exact ih s2 s1 (hP s e s2 hs hn) h

theorem next_eq_some (env : Env) (s : State) (e : Ev) (s1 : State)
    (h : next env s e = some s1) : Step env s e s1 := by
  obtain ⟨running, out, pc, handlers, clock, sleeps⟩ := s
  cases e with
  | step =>
    cases pc with
    | sleeping r =>
      cases r with
      | zero => simp [next, main] at h; subst h; exact Step.wake _ rfl
      | succ r => simp [next, main] at h
    | test =>
      cases running with
      | true => simp [next, main] at h; subst h; exact Step.enter _ rfl rfl
      | false => simp [next, main] at h; subst h; exact Step.leave _ rfl rfl
    | regTerm => simp only [next, main, Option.some.injEq] at h; subst h; exact Step.regTerm _ rfl
    | regInt => simp only [next, main, Option.some.injEq] at h; subst h; exact Step.regInt _ rfl
    | greet => simp [next, main] at h; subst h; exact Step.greet _ rfl
    | callSleep => simp [next, main] at h; subst h; exact Step.callSleep _ rfl
    | bye => simp [next, main] at h; subst h; exact Step.bye _ rfl
    | ret => simp [next, main] at h; subst h; exact Step.ret _ rfl
    | exited st => simp [next, main] at h
    | killed sg => simp [next, main] at h
  | tick =>
    cases pc with
    | sleeping r =>
      cases r with
      | zero => simp [next, tick] at h
      | succ r => simp [next, tick] at h; subst h; exact Step.tick _ r rfl
    | _ => simp [next, tick] at h
  | signal sig =>
    by_cases hh : sig.num ∈ handlers
    · cases pc with
      | sleeping r =>
        simp [next, deliver, hh, interrupt, signal_handler] at h
        subst h; exact Step.caughtAsleep _ sig r rfl hh
      | exited st => simp [next, deliver] at h
      | killed sg => simp [next, deliver] at h
      | _ =>
        simp [next, deliver, hh, interrupt, signal_handler] at h
        subst h; exact Step.caughtAwake _ sig rfl rfl hh
    · cases pc with
      | exited st => simp [next, deliver] at h
      | killed sg => simp [next, deliver] at h
      | _ =>
        simp [next, deliver, hh] at h
        subst h; exact Step.uncaught _ sig rfl hh

theorem next_of_step (env : Env) (s : State) (e : Ev) (s1 : State)
    (h : Step env s e s1) : next env s e = some s1 := by
  cases h with
  | enter hpc hr => simp [next, main, hpc, hr]
  | leave hpc hr => simp [next, main, hpc, hr]
  | tick r hpc => simp [next, tick, hpc]
  | caughtAsleep sig r hpc hh =>
    simp [next, deliver, hpc, hh, interrupt, signal_handler]
  | caughtAwake sig hl ha hh =>
    obtain ⟨running, out, pc, handlers, clock, sleeps⟩ := s
    cases pc <;> simp_all [next, deliver, interrupt, signal_handler, Pc.live, Pc.asleep]
  | uncaught sig hl hh =>
    obtain ⟨running, out, pc, handlers, clock, sleeps⟩ := s
    cases pc <;> simp_all [next, deliver, Pc.live]
  | _ => simp_all [next, main]

theorem Inv_init (env : Env) : Inv env init := by
  simp [Inv, init]

theorem Inv_next (env : Env) (s : State) (e : Ev) (s1 : State) (hI : Inv env s)
    (h : next env s e = some s1) : Inv env s1 := by
  cases next_eq_some env s e s1 h with
  | regTerm hpc =>
    simp only [Inv, hpc] at hI
    simp [Inv, signal_handlers, hI.1, hI.2, init]
  | regInt hpc =>
    simp only [Inv, hpc] at hI
    simp [Inv, registered, signal_handlers, hI.1, hI.2]
  | tick r hpc =>
    simp only [Inv, hpc] at hI
    simp only [Inv]
    exact ⟨hI.1, hI.2.1, by omega⟩
  | caughtAwake sig hl ha hh =>
    cases hp : s.pc <;> simp_all [Inv, Pc.live, Pc.asleep]
  | uncaught sig hl hh =>
    cases hp : s.pc <;> simp_all [Inv, Pc.live]
  | _ => simp_all [Inv]

theorem Inv_exec (env : Env) (evs : List Ev) (s : State)
    (h : exec env init evs = some s) : Inv env s :=
  exec_invariant env (Inv env) (fun s e s1 => Inv_next env s e s1) evs init s (Inv_init env) h

theorem Inv_prefix (env : Env) (s : State) (hI : Inv env s) :
    s.out <+: [greeting env.pid, farewell] := by
  have h3 : ∀ o : List String, o = [] ∨ o = [greeting env.pid] ∨
      o = [greeting env.pid, farewell] → o <+: [greeting env.pid, farewell] := by
    intro o ho
    rcases ho with ho | ho | ho <;> subst ho <;> simp
  apply h3
  cases hp : s.pc <;> simp_all [Inv]
  rcases hI with hI | hI | hI <;> simp [hI]

theorem Inv_farewell (env : Env) (s : State) (hI : Inv env s) (hf : farewell ∈ s.out) :
    s.running = false := by
  have hne : ¬ farewell = greeting env.pid := fun h => greeting_ne_farewell env.pid h.symm
  cases hp : s.pc <;> simp_all [Inv]
  rcases hI with hI | hI | hI <;> simp_all

theorem Inv_count (env : Env) (s : State) (hI : Inv env s) :
    s.out.count farewell ≤ 1 := by
  have hp := Inv_prefix env s hI
  have hc := hp.sublist.count_le farewell
  have hne : greeting env.pid ≠ farewell := greeting_ne_farewell env.pid
  have h1 : List.count farewell [greeting env.pid, farewell] = 1 := by
    simp [List.count_cons, hne]
  omega

theorem Inv_exited (env : Env) (s : State) (hI : Inv env s) (st : Int)
    (hx : s.pc = Pc.exited st) :
    s.out = [greeting env.pid, farewell] ∧ s.running = false ∧ st = 0 := by
  simp only [Inv, hx] at hI
  exact ⟨hI.1, hI.2.2.1, hI.2.2.2⟩

/-- The flag is cleared only by a signal that reaches `signal_handler`. -/
theorem caught_of_cleared (env : Env) :
    ∀ evs s s1, s.running = true → exec env s evs = some s1 → s1.running = false →
      Caught env s evs := by
  intro evs
  induction evs with
  | nil =>
    intro s s1 hs h h1
    simp at h
    subst h
    simp [hs] at h1
  | cons e es ih =>
    intro s s1 hs h h1
    simp only [exec_cons] at h
    cases hn : next env s e with
    | none => simp [hn] at h
    | some s2 =>
      rw [hn] at h
      simp only [Option.some_bind] at h
      by_cases h2 : s2.running = true
      · obtain ⟨pre, sig, post, s0, he, hx, hh⟩ := ih s2 s1 h2 h h1
        exact ⟨e :: pre, sig, post, s0, by simp [he], by simp [hn, hx], hh⟩
      · have hstep := next_eq_some env s e s2 hn
        cases hstep with
        | caughtAsleep sig r hpc hh => exact ⟨[], sig, es, s, rfl, rfl, hh, hs⟩
        | caughtAwake sig hl ha hh => exact ⟨[], sig, es, s, rfl, rfl, hh, hs⟩
        | _ => simp_all

theorem running_next (env : Env) (s : State) (e : Ev) (s1 : State)
    (hf : s.running = false) (h : next env s e = some s1) : s1.running = false := by
  cases next_eq_some env s e s1 h <;> simp_all

theorem Idling_next (env : Env) (s : State) (e : Ev) (s1 : State) (hq : e.quiet = true)
    (hI : Idling env s) (h : next env s e = some s1) : Idling env s1 := by
  obtain ⟨hr, hI⟩ := hI
  cases next_eq_some env s e s1 h with
  | callSleep hpc =>
    simp only [hpc] at hI
    simp only [Idling]
    refine ⟨hr, hI.1, le_refl _, ?_⟩
    simp only [hI.2, interval]
    omega
  | tick r hpc =>
    simp only [hpc] at hI
    simp only [Idling]
    refine ⟨hr, hI.1, by omega, by omega⟩
  | wake hpc =>
    simp only [hpc] at hI
    simp only [Idling]
    exact ⟨hr, hI.1, by omega⟩
  | caughtAsleep sig r hpc hh => simp [Ev.quiet] at hq
  | caughtAwake sig hl ha hh => simp [Ev.quiet] at hq
  | uncaught sig hl hh => simp [Ev.quiet] at hq
  | _ => simp_all [Idling]

theorem Idling_exec (env : Env) :
    ∀ evs s s1, (∀ e ∈ evs, e.quiet = true) → Idling env s → exec env s evs = some s1 →
      Idling env s1 := by
  intro evs
  induction evs with
  | nil =>
    intro s s1 _ hs h
    simp at h
    exact h ▸ hs
  | cons e es ih =>
    intro s s1 hq hs h
    simp only [exec_cons] at h
    cases hn : next env s e with
    | none => simp [hn] at h
    | some s2 =>
      rw [hn] at h
      exact ih s2 s1 (fun x hx => hq x (List.mem_cons_of_mem e hx))
        (Idling_next env s e s2 (hq e (List.mem_cons_self e es)) hs hn) h

theorem exec_startup (env : Env) :
    exec env init startup = some
      { running := true, out := [greeting env.pid], pc := Pc.test,
        handlers := registered env, clock := 0, sleeps := 0 } := by
  simp [startup, next, main, init, registered, signal_handlers]

theorem exec_nap (env : Env) (s : State) (hpc : s.pc = Pc.test) (hr : s.running = true) :
    exec env s nap = some
      { s with clock := s.clock + interval, sleeps := s.sleeps + 1 } := by
  obtain ⟨running, out, pc, handlers, clock, sleeps⟩ := s
  simp only at hpc hr
  subst hpc hr
  simp [nap, next, main, tick, interval]

theorem exec_idleRun (env : Env) (n : Nat) :
    exec env init (idleRun n) = some
      { running := true, out := [greeting env.pid], pc := Pc.test,
        handlers := registered env, clock := interval * n, sleeps := n } := by
  induction n with
  | zero => simpa [idleRun] using exec_startup env
  | succ n ih =>
    rw [idleRun, exec_append, ih, Option.some_bind, exec_nap env _ rfl rfl]
    simp [Nat.mul_succ]

theorem num_mem (sig : Signal) (l : List Int) (ht : SIGTERM ∈ l) (hi : SIGINT ∈ l) :
    sig.num ∈ l := by
  cases sig
  · exact hi
  · exact ht

theorem Stopping_next (env : Env) (s : State) (e : Ev) (s1 : State) (hS : Stopping s)
    (h : next env s e = some s1) :
    Stopping s1 ∧ s1.clock + s1.pc.wait ≤ s.clock + s.pc.wait ∧
      s1.sleeps + s1.pc.naps ≤ s.sleeps + s.pc.naps ∧
      s1.pc.todo + (if e.quiet then 1 else 0) ≤ s.pc.todo := by
  obtain ⟨hr, ht, hi, hk⟩ := hS
  cases next_eq_some env s e s1 h with
  | regTerm hpc =>
    simp [Stopping, hpc, hr, Pc.wait, Pc.naps, Pc.todo, Ev.quiet, signal_handlers]
    split <;> simp [ht, hi]
  | regInt hpc =>
    simp [Stopping, hpc, hr, Pc.wait, Pc.naps, Pc.todo, Ev.quiet, signal_handlers]
    split <;> simp [ht, hi]
  | enter hpc hr1 => simp [hr] at hr1
  | uncaught sig hl hh => exact absurd (num_mem sig s.handlers ht hi) hh
  | caughtAwake sig hl ha hh =>
    simp [Stopping, ht, hi, Ev.quiet]
    exact hk
  | tick r hpc =>
    simp [Stopping, hpc, hr, ht, hi, Pc.wait, Pc.naps, Pc.todo, Ev.quiet]
    omega
  | _ =>
    simp_all [Stopping, Pc.wait, Pc.naps, Pc.todo, Ev.quiet]

theorem Stopping_exec (env : Env) :
    ∀ evs s s2, Stopping s → exec env s evs = some s2 →
      Stopping s2 ∧ s2.clock + s2.pc.wait ≤ s.clock + s.pc.wait ∧
        s2.sleeps + s2.pc.naps ≤ s.sleeps + s.pc.naps ∧
        s2.pc.todo + evs.countP Ev.quiet ≤ s.pc.todo := by
  intro evs
  induction evs with
  | nil =>
    intro s s2 hS h
    simp at h
    subst h
    simp [hS]
  | cons e es ih =>
    intro s s2 hS h
    simp only [exec_cons] at h
    cases hn : next env s e with
    | none => simp [hn] at h
    | some s1 =>
      rw [hn] at h
      obtain ⟨hS1, hc1, hn1, ht1⟩ := Stopping_next env s e s1 hS hn
      obtain ⟨hS2, hc2, hn2, ht2⟩ := ih s1 s2 hS1 h
      refine ⟨hS2, by omega, by omega, ?_⟩
      rw [List.countP_cons]
      omega

theorem Stopping_progress (env : Env) (s : State) (hS : Stopping s) :
    (s.pc.todo = 0 ∧ ∃ st, s.pc = Pc.exited st) ∨
      ∃ e s1, e.quiet = true ∧ next env s e = some s1 := by
  obtain ⟨hr, ht, hi, hk⟩ := hS
  cases hp : s.pc with
  | exited st => exact Or.inl ⟨rfl, st, rfl⟩
  | killed sg => exact absurd hp (hk sg)
  | sleeping r =>
    cases r with
    | zero => exact Or.inr ⟨Ev.step, _, rfl, by simp [next, main, hp]; rfl⟩
    | succ r => exact Or.inr ⟨Ev.tick, _, rfl, by simp [next, tick, hp]; rfl⟩
  | _ => exact Or.inr ⟨Ev.step, _, rfl, by simp [next, main, hp]; rfl⟩

theorem Stopping_finish (env : Env) :
    ∀ n s, Stopping s → s.pc.todo ≤ n →
      ∃ fin s3 st, exec env s fin = some s3 ∧ s3.pc = Pc.exited st ∧ fin.length ≤ n := by
  intro n
  induction n with
  | zero =>
    intro s hS h0
    rcases Stopping_progress env s hS with ⟨_, st, hst⟩ | ⟨e, s1, hq, hn⟩
    · exact ⟨[], s, st, rfl, hst, by simp⟩
    · have := (Stopping_next env s e s1 hS hn).2.2.2
      simp [hq] at this
      omega
  | succ n ih =>
    intro s hS hn1
    rcases Stopping_progress env s hS with ⟨_, st, hst⟩ | ⟨e, s1, hq, hn⟩
    · exact ⟨[], s, st, rfl, hst, by simp⟩
    · obtain ⟨hS1, _, _, ht⟩ := Stopping_next env s e s1 hS hn
      simp [hq] at ht
      obtain ⟨fin, s3, st, hx, hp, hl⟩ := ih s1 hS1 (by omega)
      exact ⟨e :: fin, s3, st, by simp [hn, hx], hp, by simp; omega⟩

theorem Stopping_deliver (s : State) (sig : Signal) (s1 : State)
    (ht : SIGTERM ∈ s.handlers) (hi : SIGINT ∈ s.handlers)
    (h : deliver sig s = some s1) :
    Stopping s1 ∧ s1.clock = s.clock ∧ s1.sleeps = s.sleeps ∧ s1.pc.asleep = false := by
  have hn : next (okEnv 0) s (Ev.signal sig) = some s1 := h
  cases next_eq_some (okEnv 0) s (Ev.signal sig) s1 hn with
  | caughtAsleep _ r hpc hh => simp [Stopping, ht, hi, Pc.asleep]
  | caughtAwake _ hl ha hh =>
    refine ⟨⟨rfl, ht, hi, fun sg hk => ?_⟩, rfl, rfl, ha⟩
    simp only at hk
    simp [hk, Pc.live] at hl
  | uncaught _ hl hh => exact absurd (num_mem sig s.handlers ht hi) hh

theorem registered_mem (env : Env) (k : Int) (hk : k ∈ registered env) :
    (k = SIGTERM ∧ env.sigOk SIGTERM = true) ∨ (k = SIGINT ∧ env.sigOk SIGINT = true) := by
  simp only [registered, signal_handlers, init] at hk
  by_cases ht : env.sigOk SIGTERM = true <;> by_cases hi : env.sigOk SIGINT = true <;>
    simp [ht, hi, List.mem_insert_iff] at hk ⊢
  · exact hk.symm
  · exact hk
  · exact hk

theorem registered_ok (env : Env) (ht : env.sigOk SIGTERM = true)
    (hi : env.sigOk SIGINT = true) : registered env = [SIGINT, SIGTERM] := by
  simp only [registered, signal_handlers, init, ht, hi, if_true]
  decide

theorem handlers_sub (env : Env) (evs : List Ev) (s : State)
    (h : exec env init evs = some s) : ∀ k, k ∈ s.handlers → k ∈ registered env := by
  refine exec_invariant env (fun t => ∀ k, k ∈ t.handlers → k ∈ registered env) ?_ evs init s
    (by simp [init]) h
  intro t e t1 ht hn k hk
  cases next_eq_some env t e t1 hn with
  | regTerm hpc =>
    simp only [signal_handlers] at hk
    simp only [registered, signal_handlers, init]
    by_cases h1 : env.sigOk SIGTERM = true
    · simp only [h1, if_true, List.mem_insert_iff] at hk ⊢
      rcases hk with hk | hk
      · subst hk; split <;> simp
      · have := ht k hk
        simpa [registered, signal_handlers, init, h1] using this
    · simp only [h1] at hk
      have := ht k hk
      simpa [registered, signal_handlers, init, h1] using this
  | regInt hpc =>
    simp only [signal_handlers] at hk
    by_cases h1 : env.sigOk SIGINT = true
    · simp only [h1, if_true, List.mem_insert_iff] at hk
      rcases hk with hk | hk
      · subst hk
        simp [registered, signal_handlers, h1]
      · exact ht k hk
    · simp only [h1] at hk
      exact ht k hk
  | _ => exact ht k hk

theorem handler_noop (n : Int) (s : State) (hf : s.running = false) :
    signal_handler n s = s := by
  obtain ⟨running, out, pc, handlers, clock, sleeps⟩ := s
  simp only at hf
  subst hf
  rfl

theorem deliver_caught (sig : Signal) (s : State) (hl : s.pc.live = true)
    (hh : sig.num ∈ s.handlers) :
    deliver sig s = some (interrupt (signal_handler sig.num s)) := by
  cases hp : s.pc <;> simp_all [deliver, Pc.live]

/-! ## The claims -/

/-- C1: for every process id and every run of `main` from process start, the lines
written so far are a prefix of the two-line list made of the greeting followed by the
decimal process id and of the shutdown message, so the first line written is always
the greeting; when `main` has returned, the output is exactly these two lines. -/
theorem C1_output_trace (env : Env) (evs : List Ev) (s : State)
    (h : exec env init evs = some s) :
    s.out <+: ["Hello World from Yocto! PID: " ++ toString env.pid, "Service exiting cleanly"] ∧
    (∀ l, s.out.head? = some l → l = "Hello World from Yocto! PID: " ++ toString env.pid) ∧
    (∀ st, s.pc = Pc.exited st →
      s.out = ["Hello World from Yocto! PID: " ++ toString env.pid, "Service exiting cleanly"]) := by
  have hI := Inv_exec env evs s h
  have hp := Inv_prefix env s hI
  refine ⟨hp, ?_, fun st hx => (Inv_exited env s hI st hx).1⟩
  intro l hl
  obtain ⟨t, ht⟩ := hp
  cases ho : s.out with
  | nil => simp [ho] at hl
  | cons a as =>
    rw [ho] at hl ht
    simp only [List.head?_cons, Option.some.injEq] at hl
    simp only [List.cons_append, greeting, farewell] at ht
    rw [← hl]
    exact (List.cons.inj ht).1

/-- Witness of C1: the run `slowRun` of process 4711 returns, having written exactly the
two lines. -/
theorem C1_output_trace_witness :
    exec (okEnv 4711) init slowRun = some slowEnd ∧
    slowEnd.pc = Pc.exited 0 ∧
    (slowEnd.out <+: ["Hello World from Yocto! PID: " ++ toString (okEnv 4711).pid,
        "Service exiting cleanly"] ∧
      (∀ l, slowEnd.out.head? = some l →
        l = "Hello World from Yocto! PID: " ++ toString (okEnv 4711).pid) ∧
      (∀ st, slowEnd.pc = Pc.exited st →
        slowEnd.out = ["Hello World from Yocto! PID: " ++ toString (okEnv 4711).pid,
          "Service exiting cleanly"])) :=
  ⟨by decide, rfl, C1_output_trace (okEnv 4711) slowRun slowEnd (by decide)⟩

/-- C2: in every run of `main` the shutdown message occurs at most once in the output,
and whenever the output contains it, an earlier event of the run is a termination
signal that was delivered to `signal_handler` (its handler was installed when it
arrived) at a moment when the message had not been written yet. -/
theorem C2_shutdown_message_after_signal (env : Env) (evs : List Ev) (s : State)
    (h : exec env init evs = some s) :
    s.out.count "Service exiting cleanly" ≤ 1 ∧
    ("Service exiting cleanly" ∈ s.out →
      ∃ pre sig post s0, evs = pre ++ Ev.signal sig :: post ∧
        exec env init pre = some s0 ∧ sig.num ∈ s0.handlers ∧
        "Service exiting cleanly" ∉ s0.out) := by
  have hI := Inv_exec env evs s h
  refine ⟨Inv_count env s hI, fun hf => ?_⟩
  have hr := Inv_farewell env s hI hf
  obtain ⟨pre, sig, post, s0, he, hx, hh, h0⟩ := caught_of_cleared env evs init s rfl h hr
  refine ⟨pre, sig, post, s0, he, hx, hh, fun hf0 => ?_⟩
  have := Inv_farewell env s0 (Inv_exec env pre s0 hx) hf0
  simp [h0] at this

/-- Witness of C2: `slowRun` ends with the shutdown message written once, after the
`SIGINT` that is its fifth event. -/
theorem C2_shutdown_message_after_signal_witness :
    exec (okEnv 4711) init slowRun = some slowEnd ∧
    "Service exiting cleanly" ∈ slowEnd.out ∧
    (slowEnd.out.count "Service exiting cleanly" ≤ 1 ∧
      ("Service exiting cleanly" ∈ slowEnd.out →
        ∃ pre sig post s0, slowRun = pre ++ Ev.signal sig :: post ∧
          exec (okEnv 4711) init pre = some s0 ∧ sig.num ∈ s0.handlers ∧
          "Service exiting cleanly" ∉ s0.out)) :=
  ⟨by decide, by decide,
    C2_shutdown_message_after_signal (okEnv 4711) slowRun slowEnd (by decide)⟩

/-- C3: with no signal delivered the loop never ends on its own.  For every number `n`
of completed sleep intervals the signal-free run with `n` intervals exists and ends at
the loop condition with `running` true, the greeting as only output and `5 * n` time
units elapsed; and every state reached by any signal-free run has `running` true, has
written nothing but the greeting, and is in the startup or, as soon as the greeting is
out or a sleep was started, inside the loop.  In particular at 12 time units the
process is in its third sleep. -/
theorem C3_loop_never_self_terminates (env : Env) :
    (∀ n, exec env init (idleRun n) = some
      { running := true, out := ["Hello World from Yocto! PID: " ++ toString env.pid],
        pc := Pc.test, handlers := registered env, clock := 5 * n, sleeps := n }) ∧
    (∀ evs s, (∀ sig, Ev.signal sig ∉ evs) → exec env init evs = some s →
      s.running = true ∧
      (s.out = [] ∨ s.out = ["Hello World from Yocto! PID: " ++ toString env.pid]) ∧
      (s.pc = Pc.regTerm ∨ s.pc = Pc.regInt ∨ s.pc = Pc.greet ∨ s.pc.inLoop = true) ∧
      (s.out ≠ [] ∨ 1 ≤ s.sleeps ∨ 1 ≤ s.clock → s.pc.inLoop = true ∧
        s.out = ["Hello World from Yocto! PID: " ++ toString env.pid]) ∧
      (s.clock = 12 → s.pc = Pc.sleeping 3 ∧ s.sleeps = 3)) := by
  refine ⟨fun n => exec_idleRun env n, ?_⟩
  intro evs s hq h
  have hi : Idling env init := by simp [Idling, init]
  have hquiet : ∀ e ∈ evs, e.quiet = true := by
    intro e he
    cases e with
    | signal sig => exact absurd he (hq sig)
    | _ => rfl
  obtain ⟨hr, hI⟩ := Idling_exec env evs init s hquiet hi h
  refine ⟨hr, ?_⟩
  cases hp : s.pc with
  | sleeping r =>
    simp only [hp] at hI
    simp only [interval] at hI
    refine ⟨Or.inr hI.1, by simp [Pc.inLoop], fun _ => ⟨rfl, hI.1⟩, fun hc => ?_⟩
    have h3 : s.sleeps = 3 := by omega
    refine ⟨?_, h3⟩
    have : r = 3 := by omega
    rw [this]
  | test =>
    simp only [hp, interval] at hI
    exact ⟨Or.inr hI.1, by simp [Pc.inLoop], fun _ => ⟨rfl, hI.1⟩, fun hc => by omega⟩
  | callSleep =>
    simp only [hp, interval] at hI
    exact ⟨Or.inr hI.1, by simp [Pc.inLoop], fun _ => ⟨rfl, hI.1⟩, fun hc => by omega⟩
  | regTerm =>
    simp only [hp] at hI
    refine ⟨Or.inl hI.1, by simp, fun hc => ?_, fun hc => by omega⟩
    rcases hc with hc | hc | hc
    · exact absurd hI.1 hc
    · omega
    · omega
  | regInt =>
    simp only [hp] at hI
    refine ⟨Or.inl hI.1, by simp, fun hc => ?_, fun hc => by omega⟩
    rcases hc with hc | hc | hc
    · exact absurd hI.1 hc
    · omega
    · omega
  | greet =>
    simp only [hp] at hI
    refine ⟨Or.inl hI.1, by simp, fun hc => ?_, fun hc => by omega⟩
    rcases hc with hc | hc | hc
    · exact absurd hI.1 hc
    · omega
    · omega
  | bye => simp [hp] at hI
  | ret => simp [hp] at hI
  | exited st => simp [hp] at hI
  | killed sg => simp [hp] at hI

/-- Witness of C3: the signal-free run observed after 12 time units is in its third
sleep, still running, with the greeting as only output. -/
theorem C3_loop_never_self_terminates_witness :
    (∀ sig, Ev.signal sig ∉ twelveRun) ∧
    exec (okEnv 4711) init twelveRun = some twelveEnd ∧
    (twelveEnd.running = true ∧
      (twelveEnd.out = [] ∨
        twelveEnd.out = ["Hello World from Yocto! PID: " ++ toString (okEnv 4711).pid]) ∧
      (twelveEnd.pc = Pc.regTerm ∨ twelveEnd.pc = Pc.regInt ∨ twelveEnd.pc = Pc.greet ∨
        twelveEnd.pc.inLoop = true) ∧
      (twelveEnd.out ≠ [] ∨ 1 ≤ twelveEnd.sleeps ∨ 1 ≤ twelveEnd.clock →
        twelveEnd.pc.inLoop = true ∧
        twelveEnd.out = ["Hello World from Yocto! PID: " ++ toString (okEnv 4711).pid]) ∧
      (twelveEnd.clock = 12 → twelveEnd.pc = Pc.sleeping 3 ∧ twelveEnd.sleeps = 3)) :=
  ⟨fun sig => by cases sig <;> decide, by decide,
    (C3_loop_never_self_terminates (okEnv 4711)).2 twelveRun twelveEnd
      (fun sig => by cases sig <;> decide) (by decide)⟩

/-- C4: let a termination signal be delivered in any state of a run in which both
handlers are installed.  Then in every state `s2` of the continuation: at most one
further call of `sleep` has been made, every call of `sleep` asks for 5 time units and
no sleep has more than 5 left, at most 5 time units have passed since the signal, at
most 10 statements and time units have been executed since the signal, the process is
never stuck before `main` has returned, and the continuation can be completed: `main`
writes the shutdown message and returns 0 at most 5 time units after the signal. -/
theorem C4_shutdown_within_one_interval (env : Env) (pre : List Ev) (s : State)
    (sig : Signal) (s1 : State) (evs : List Ev) (s2 : State)
    (hreach : exec env init pre = some s)
    (hterm : SIGTERM ∈ s.handlers) (hint : SIGINT ∈ s.handlers)
    (hsig : deliver sig s = some s1)
    (hrun : exec env s1 evs = some s2) :
    s2.sleeps ≤ s.sleeps + 1 ∧
    (s2.pc = Pc.callSleep →
      main env s2 = some { s2 with pc := Pc.sleeping 5, sleeps := s2.sleeps + 1 }) ∧
    (∀ r, s2.pc = Pc.sleeping r → r ≤ 5) ∧
    s2.clock ≤ s.clock + 5 ∧
    evs.countP Ev.quiet ≤ 10 ∧
    ((∃ t, main env s2 = some t) ∨ (∃ t, tick s2 = some t) ∨ s2.pc = Pc.exited 0) ∧
    (∃ fin s3, exec env s2 fin = some s3 ∧ s3.pc = Pc.exited 0 ∧
      s3.out = ["Hello World from Yocto! PID: " ++ toString env.pid,
        "Service exiting cleanly"] ∧
      s3.clock ≤ s.clock + 5 ∧ s3.sleeps ≤ s.sleeps + 1) := by
  obtain ⟨hS1, hc1, hn1, ha1⟩ := Stopping_deliver s sig s1 hterm hint hsig
  obtain ⟨hS2, hc2, hn2, ht2⟩ := Stopping_exec env evs s1 s2 hS1 hrun
  have hnext : next env s (Ev.signal sig) = some s1 := hsig
  have hreach2 : exec env init (pre ++ Ev.signal sig :: evs) = some s2 := by
    simp [exec_append, hreach, hnext, hrun]
  have hI2 := Inv_exec env _ s2 hreach2
  have hw1 : s1.pc.wait ≤ 5 ∧ s1.pc.naps ≤ 1 ∧ s1.pc.todo ≤ 10 := by
    cases hp : s1.pc <;> simp_all [Pc.wait, Pc.naps, Pc.todo, Pc.asleep, interval]
  obtain ⟨fin, s3, st, hx3, hp3, _⟩ := Stopping_finish env s2.pc.todo s2 hS2 (le_refl _)
  obtain ⟨_, hc3, hn3, _⟩ := Stopping_exec env fin s2 s3 hS2 hx3
  have hreach3 : exec env init ((pre ++ Ev.signal sig :: evs) ++ fin) = some s3 := by
    rw [exec_append, hreach2]
    exact hx3
  have hI3 := Inv_exited env s3 (Inv_exec env _ s3 hreach3) st hp3
  refine ⟨by omega, ?_, ?_, by omega, by omega, ?_, ?_⟩
  · intro hp
    simp [main, hp, interval]
  · intro r hp
    simp only [Inv, hp] at hI2
    exact hI2.2.2
  · rcases Stopping_progress env s2 hS2 with ⟨_, st2, hst2⟩ | ⟨e, t, hq, hn⟩
    · have := (Inv_exited env s2 hI2 st2 hst2).2.2
      subst this
      exact Or.inr (Or.inr hst2)
    · cases e with
      | step => exact Or.inl ⟨t, hn⟩
      | tick => exact Or.inr (Or.inl ⟨t, hn⟩)
      | signal sg => simp [Ev.quiet] at hq
  · have h0 := hI3.2.2
    subst h0
    exact ⟨fin, s3, hx3, hp3, hI3.1, by omega, by omega⟩

/-- Witness of C4: `SIGINT` arrives just after the loop condition was found true.  The
sleep that follows is the only one, and two time units into it the bounds hold and the
shutdown can be completed. -/
theorem C4_shutdown_within_one_interval_witness :
    exec (okEnv 4711) init toCall = some atCall ∧
    SIGTERM ∈ atCall.handlers ∧ SIGINT ∈ atCall.handlers ∧
    deliver Signal.int atCall = some atCallFlagged ∧
    exec (okEnv 4711) atCallFlagged [Ev.step, Ev.tick, Ev.tick] = some midSleep ∧
    (midSleep.sleeps ≤ atCall.sleeps + 1 ∧
      (midSleep.pc = Pc.callSleep →
        main (okEnv 4711) midSleep =
          some { midSleep with pc := Pc.sleeping 5, sleeps := midSleep.sleeps + 1 }) ∧
      (∀ r, midSleep.pc = Pc.sleeping r → r ≤ 5) ∧
      midSleep.clock ≤ atCall.clock + 5 ∧
      [Ev.step, Ev.tick, Ev.tick].countP Ev.quiet ≤ 10 ∧
      ((∃ t, main (okEnv 4711) midSleep = some t) ∨ (∃ t, tick midSleep = some t) ∨
        midSleep.pc = Pc.exited 0) ∧
      (∃ fin s3, exec (okEnv 4711) midSleep fin = some s3 ∧ s3.pc = Pc.exited 0 ∧
        s3.out = ["Hello World from Yocto! PID: " ++ toString (okEnv 4711).pid,
          "Service exiting cleanly"] ∧
        s3.clock ≤ atCall.clock + 5 ∧ s3.sleeps ≤ atCall.sleeps + 1)) :=
  ⟨by decide, by decide, by decide, by decide, by decide,
    C4_shutdown_within_one_interval (okEnv 4711) toCall atCall Signal.int atCallFlagged
      [Ev.step, Ev.tick, Ev.tick] midSleep (by decide) (by decide) (by decide) (by decide)
      (by decide)⟩

/-- C6, as the code behaves: `main` does not look at what `signal` returns.  When a
registration fails, the handler for that very signal stays uninstalled, in the table
left by the two calls and in every state of every run, while a registration that
succeeds installs its handler; a signal whose registration failed kills the live
process by its default action.  `main` still writes the greeting and enters the idle
loop, and no run returns a status other than 0; when both registrations fail the flag
stays true for ever and no run returns at all. -/
theorem C6_registration_failure_ignored (env : Env)
    (hfail : env.sigOk SIGTERM = false ∨ env.sigOk SIGINT = false) :
    exec env init [Ev.step, Ev.step, Ev.step, Ev.step, Ev.step] = some
      { running := true, out := ["Hello World from Yocto! PID: " ++ toString env.pid],
        pc := Pc.sleeping 5, handlers := registered env, clock := 0, sleeps := 1 } ∧
    (SIGTERM ∉ registered env ∨ SIGINT ∉ registered env) ∧
    (env.sigOk SIGTERM = false → SIGTERM ∉ registered env) ∧
    (env.sigOk SIGINT = false → SIGINT ∉ registered env) ∧
    (env.sigOk SIGTERM = true → SIGTERM ∈ registered env) ∧
    (env.sigOk SIGINT = true → SIGINT ∈ registered env) ∧
    (∀ evs s, exec env init evs = some s →
      (env.sigOk SIGTERM = false → SIGTERM ∉ s.handlers) ∧
      (env.sigOk SIGINT = false → SIGINT ∉ s.handlers) ∧
      (∀ sig, env.sigOk sig.num = false → s.pc.live = true →
        deliver sig s = some { s with pc := Pc.killed sig })) ∧
    (∀ evs s st, exec env init evs = some s → s.pc = Pc.exited st → st = 0) ∧
    (env.sigOk SIGTERM = false → env.sigOk SIGINT = false →
      ∀ evs s, exec env init evs = some s → s.running = true ∧ ∀ st, s.pc ≠ Pc.exited st) := by
  have hne : SIGTERM ≠ SIGINT := by decide
  have hT : env.sigOk SIGTERM = false → SIGTERM ∉ registered env := by
    intro hf hm
    rcases registered_mem env _ hm with ⟨_, h1⟩ | ⟨h1, _⟩
    · simp [hf] at h1
    · exact hne h1
  have hI : env.sigOk SIGINT = false → SIGINT ∉ registered env := by
    intro hf hm
    rcases registered_mem env _ hm with ⟨h1, _⟩ | ⟨_, h1⟩
    · exact hne h1.symm
    · simp [hf] at h1
  refine ⟨?_, hfail.imp hT hI, hT, hI, ?_, ?_, ?_, ?_, ?_⟩
  · simp [next, main, init, registered, signal_handlers, interval, greeting]
  · intro hok
    simp only [registered, signal_handlers, init, hok, if_true]
    split <;> simp [List.mem_insert_iff]
  · intro hok
    simp only [registered, signal_handlers, init, hok, if_true]
    simp [List.mem_insert_iff]
  · intro evs s h
    have hs := handlers_sub env evs s h
    refine ⟨fun hf hm => hT hf (hs _ hm), fun hf hm => hI hf (hs _ hm), ?_⟩
    intro sig hf hl
    have hno : sig.num ∉ s.handlers := by
      cases sig
      · exact fun hm => hI hf (hs _ hm)
      · exact fun hm => hT hf (hs _ hm)
    cases hp : s.pc <;> simp_all [deliver, Pc.live]
  · intro evs s st h hx
    exact (Inv_exited env s (Inv_exec env evs s h) st hx).2.2
  · intro ht hi evs s h
    have hr : s.running = true := by
      by_contra hc
      have hc1 : s.running = false := by simpa using hc
      obtain ⟨pre, sig, post, s0, _, hx, hh, _⟩ := caught_of_cleared env evs init s rfl h hc1
      rcases registered_mem env _ (handlers_sub env pre s0 hx _ hh) with ⟨_, h1⟩ | ⟨_, h1⟩
      · simp [ht] at h1
      · simp [hi] at h1
    refine ⟨hr, fun st hx => ?_⟩
    have := (Inv_exited env s (Inv_exec env evs s h) st hx).2.1
    simp [hr] at this

/-- Witness of C6 as amended: when only the registration for `SIGTERM` fails, process
4711 is asleep in the loop after five statements with the handler installed for
`SIGINT` alone, and a `SIGTERM` delivered then kills it. -/
theorem C6_registration_failure_ignored_witness :
    (termFailEnv 4711).sigOk SIGTERM = false ∧ (termFailEnv 4711).sigOk SIGINT = true ∧
    registered (termFailEnv 4711) = [SIGINT] ∧
    exec (termFailEnv 4711) init [Ev.step, Ev.step, Ev.step, Ev.step, Ev.step] = some
      { running := true, out := ["Hello World from Yocto! PID: 4711"],
        pc := Pc.sleeping 5, handlers := [2], clock := 0, sleeps := 1 } ∧
    SIGTERM ∉ registered (termFailEnv 4711) ∧
    SIGINT ∈ registered (termFailEnv 4711) ∧
    deliver Signal.term
        { running := true, out := ["Hello World from Yocto! PID: 4711"],
          pc := Pc.sleeping 5, handlers := [2], clock := 0, sleeps := 1 } =
      some { running := true, out := ["Hello World from Yocto! PID: 4711"],
             pc := Pc.killed Signal.term, handlers := [2], clock := 0, sleeps := 1 } :=
  ⟨by decide, by decide, by decide, by decide,
    (C6_registration_failure_ignored (termFailEnv 4711) (Or.inl (by decide))).2.2.1
      (by decide),
    (C6_registration_failure_ignored (termFailEnv 4711) (Or.inl (by decide))).2.2.2.2.2.1
      (by decide),
    (((C6_registration_failure_ignored (termFailEnv 4711) (Or.inl (by decide))).2.2.2.2.2.2.1
      [Ev.step, Ev.step, Ev.step, Ev.step, Ev.step]
      { running := true, out := ["Hello World from Yocto! PID: 4711"],
        pc := Pc.sleeping 5, handlers := [2], clock := 0, sleeps := 1 }
      (by decide)).2.2 Signal.term (by decide) rfl)⟩

/-- Counterexample to C6 as stated: both calls of `signal` fail for process 4711, yet
after five statements `main` is asleep inside the idle loop, with the flag true, no
handler installed and no exit status; a `SIGTERM` delivered then kills the process by
default action instead of shutting it down. -/
theorem C6_counterexample :
    (failEnv 4711).sigOk SIGTERM = false ∧ (failEnv 4711).sigOk SIGINT = false ∧
    exec (failEnv 4711) init [Ev.step, Ev.step, Ev.step, Ev.step, Ev.step] = some unarmed ∧
    unarmed.pc.inLoop = true ∧ unarmed.running = true ∧ unarmed.handlers = [] ∧
    exec (failEnv 4711) unarmed [Ev.signal Signal.term] =
      some { unarmed with pc := Pc.killed Signal.term } := by
  decide

/-- C7: `running` starts true, and from any state in which it is false every run, for
every sequence of steps, time units and signal deliveries, ends in a state in which it
is false. -/
theorem C7_running_monotone (env : Env) (s : State) (evs : List Ev) (s1 : State)
    (hf : s.running = false) (h : exec env s evs = some s1) :
    init.running = true ∧ s1.running = false :=
  ⟨rfl, exec_invariant env (fun t => t.running = false)
    (fun t e t1 ht hn => running_next env t e t1 ht hn) evs s s1 hf h⟩

/-- Witness of C7: once the flag is false at the loop condition, a further `SIGTERM`
and the rest of the shutdown leave it false. -/
theorem C7_running_monotone_witness :
    flagged.running = false ∧
    exec (okEnv 4711) flagged [Ev.signal Signal.term, Ev.step, Ev.step, Ev.step]
      = some flaggedEnd ∧
    (init.running = true ∧ flaggedEnd.running = false) :=
  ⟨rfl, by decide,
    C7_running_monotone (okEnv 4711) flagged
      [Ev.signal Signal.term, Ev.step, Ev.step, Ev.step] flaggedEnd rfl (by decide)⟩

/-- C8: `signal_handler` sets `running` to false and changes nothing else, whatever the
signal number and the state: output, program point, installed handlers, clock and
sleep count are the same before and after, and the result does not depend on the
signal number.  `main` installs this one handler with its first two statements, for
`SIGTERM` and then for `SIGINT`; in no run is it installed for any other signal, a
caught signal is always handled by it, and once both calls have succeeded it is
installed for exactly these two signals. -/
theorem C8_handler_frame (env : Env) (n : Int) (s : State) :
    (signal_handler n s).running = false ∧
    (signal_handler n s).out = s.out ∧
    (signal_handler n s).pc = s.pc ∧
    (signal_handler n s).handlers = s.handlers ∧
    (signal_handler n s).clock = s.clock ∧
    (signal_handler n s).sleeps = s.sleeps ∧
    (∀ m, signal_handler m s = signal_handler n s) ∧
    main env init = some { signal env SIGTERM init with pc := Pc.regInt } ∧
    main env { signal env SIGTERM init with pc := Pc.regInt } =
      some { signal env SIGINT (signal env SIGTERM init) with pc := Pc.greet } ∧
    (∀ evs t, exec env init evs = some t → ∀ k, k ∈ t.handlers → k = SIGTERM ∨ k = SIGINT) ∧
    (∀ sig t t1, deliver sig t = some t1 → sig.num ∈ t.handlers →
      t1 = interrupt (signal_handler sig.num t)) ∧
    (env.sigOk SIGTERM = true → env.sigOk SIGINT = true →
      ∀ evs t, exec env init evs = some t →
        t.pc ≠ Pc.regTerm → t.pc ≠ Pc.regInt → (∀ sg, t.pc ≠ Pc.killed sg) →
        ∀ k, k ∈ t.handlers ↔ k = SIGTERM ∨ k = SIGINT) := by
  refine ⟨rfl, rfl, rfl, rfl, rfl, rfl, fun _ => rfl, rfl, ?_, ?_, ?_, ?_⟩
  · simp [main, signal_handlers]
  · intro evs t h k hk
    rcases registered_mem env k (handlers_sub env evs t h k hk) with ⟨h1, _⟩ | ⟨h1, _⟩
    · exact Or.inl h1
    · exact Or.inr h1
  · intro sig t t1 hd hh
    have hl : t.pc.live = true := by
      cases hp : t.pc <;> simp_all [deliver, Pc.live]
    rw [deliver_caught sig t hl hh] at hd
    exact (Option.some.inj hd).symm
  · intro ht hi evs t h h1 h2 h3 k
    have hI := Inv_exec env evs t h
    have hreg := registered_ok env ht hi
    have hh : t.handlers = [SIGINT, SIGTERM] := by
      cases hp : t.pc <;> simp_all [Inv]
    rw [hh]
    simp only [List.mem_cons, List.mem_singleton, List.not_mem_nil, or_false]
    exact Or.comm

/-- Witness of C8: in the run `slowRun`, whose registrations succeed, the handler is
installed for `SIGTERM` and `SIGINT` and for nothing else when `main` has returned. -/
theorem C8_handler_frame_witness :
    (okEnv 4711).sigOk SIGTERM = true ∧ (okEnv 4711).sigOk SIGINT = true ∧
    exec (okEnv 4711) init slowRun = some slowEnd ∧
    (∀ k, k ∈ slowEnd.handlers ↔ k = SIGTERM ∨ k = SIGINT) :=
  ⟨rfl, rfl, by decide,
    (C8_handler_frame (okEnv 4711) SIGINT init).2.2.2.2.2.2.2.2.2.2.2 rfl rfl slowRun slowEnd
      (by decide) (by decide) (by decide) (fun sg => by simp [slowEnd])⟩

/-- C9, as the code behaves: `signal_handler` applied twice equals `signal_handler`
applied once, and it leaves a state whose flag is already false as it is.  Delivering
`SIGINT` or `SIGTERM` again, to a live process whose flag is false and whose handler for
that signal is installed, leaves flag, output, handlers, clock and sleep count as they
are; the program point is unchanged too unless the process is asleep, in which case
`sleep` returns at once.  All runs that return, whatever the number of signals in them,
have the same output and the same exit status; the shutdown message is written at most
once and after the return nothing more happens. -/
theorem C9_redelivery (env : Env) (s : State) (sig : Signal)
    (hf : s.running = false) (hl : s.pc.live = true) (hh : sig.num ∈ s.handlers) :
    signal_handler sig.num s = s ∧
    (∀ a b t, signal_handler a (signal_handler b t) = signal_handler b t) ∧
    deliver sig s = some { s with pc := if s.pc.asleep then Pc.test else s.pc } ∧
    (s.pc.asleep = false → deliver sig s = some s) ∧
    (∀ evs1 s1 st1 evs2 s2 st2, exec env init evs1 = some s1 → s1.pc = Pc.exited st1 →
      exec env init evs2 = some s2 → s2.pc = Pc.exited st2 →
      s1.out = s2.out ∧ st1 = st2) ∧
    (∀ evs s1, exec env init evs = some s1 →
      s1.out.count "Service exiting cleanly" ≤ 1 ∧
      ((∃ st, s1.pc = Pc.exited st) → ∀ e, next env s1 e = none)) := by
  have hd : deliver sig s = some { s with pc := if s.pc.asleep then Pc.test else s.pc } := by
    rw [deliver_caught sig s hl hh, handler_noop _ s hf]
    obtain ⟨running, out, pc, handlers, clock, sleeps⟩ := s
    cases pc <;> simp [interrupt, Pc.asleep]
  refine ⟨handler_noop _ s hf, fun _ _ _ => rfl, hd, ?_, ?_, ?_⟩
  · intro ha
    rw [hd, ha]
    simp
  · intro evs1 s1 st1 evs2 s2 st2 h1 hx1 h2 hx2
    have e1 := Inv_exited env s1 (Inv_exec env evs1 s1 h1) st1 hx1
    have e2 := Inv_exited env s2 (Inv_exec env evs2 s2 h2) st2 hx2
    exact ⟨e1.1.trans e2.1.symm, e1.2.2.trans e2.2.2.symm⟩
  · intro evs s1 h1
    refine ⟨Inv_count env s1 (Inv_exec env evs s1 h1), ?_⟩
    rintro ⟨st, hx⟩ e
    cases e <;> simp [next, main, tick, deliver, hx]

/-- Witness of C9 as amended: at the loop condition with the flag already false, a
further `SIGTERM` changes nothing. -/
theorem C9_redelivery_witness :
    flagged.running = false ∧ flagged.pc.live = true ∧ Signal.term.num ∈ flagged.handlers ∧
    deliver Signal.term flagged = some flagged :=
  ⟨rfl, rfl, by decide,
    (C9_redelivery (okEnv 4711) flagged Signal.term rfl rfl (by decide)).2.2.2.1 rfl⟩

/-- Counterexample to C9 as stated, in runs of process 4711 whose registrations
succeed.  First: `SIGINT` arrives just before `sleep(5)` is called, the process goes to
sleep with the flag false, and a `SIGTERM` delivered then changes the state, since it
ends the sleep.  Second: `SIGTERM` is caught between the two calls of `signal`, the
flag is false, and a `SIGINT` delivered then finds no handler and kills the process,
which writes nothing and returns no status, whereas the run with the first signal only
writes both lines and returns 0. -/
theorem C9_counterexample :
    (exec (okEnv 4711) init (toCall ++ [Ev.signal Signal.int, Ev.step]) =
        some { atCallFlagged with pc := Pc.sleeping 5, sleeps := 1 } ∧
      deliver Signal.term { atCallFlagged with pc := Pc.sleeping 5, sleeps := 1 } =
        some { atCallFlagged with pc := Pc.test, sleeps := 1 } ∧
      ({ atCallFlagged with pc := Pc.test, sleeps := 1 } : State) ≠
        { atCallFlagged with pc := Pc.sleeping 5, sleeps := 1 }) ∧
    (exec (okEnv 4711) init [Ev.step, Ev.signal Signal.term] = some halfArmed ∧
      halfArmed.running = false ∧
      deliver Signal.int halfArmed = some { halfArmed with pc := Pc.killed Signal.int } ∧
      ({ halfArmed with pc := Pc.killed Signal.int } : State) ≠ halfArmed ∧
      exec (okEnv 4711) init [Ev.step, Ev.signal Signal.term, Ev.signal Signal.int] =
        some { running := false, out := [], pc := Pc.killed Signal.int, handlers := [15],
               clock := 0, sleeps := 0 } ∧
      exec (okEnv 4711) init
          [Ev.step, Ev.signal Signal.term, Ev.step, Ev.step, Ev.step, Ev.step, Ev.step] =
        some { running := false,
               out := ["Hello World from Yocto! PID: 4711", "Service exiting cleanly"],
               pc := Pc.exited 0, handlers := [2, 15], clock := 0, sleeps := 0 }) := by
  decide

end HelloService
